import Mathlib

/-!
Verification development for the job-accelerator repository.

The shallow embedding below translates, into Lean, the frontend logic found
under `src/frontend` (learning-path task updates, target-skill entry, the
LeetCode search history, and the auth middleware) together with the
matching / extraction / aggregation / path-generation engine that the
repository's specification describes (that engine lives behind the
`/api/...` endpoints the frontend calls and is not part of the checked-in
sources, so it is modelled from the specification where noted).
-/

namespace JobAccelerator

/-! ## Learning-path task progress (src/frontend/components/LearningPathEnhanced.tsx) -/

/-- The body the frontend PUTs to `/api/learning-path/tasks/{id}/progress`:
the submitted progress together with the status derived from it
(`progress >= 100 ? 'completed' : 'in_progress'`). -/
structure TaskUpdate where
  progress : Int
  status : String
deriving DecidableEq

/-- `updateTaskProgress` from `LearningPathEnhanced.tsx` (lines 141-168):
the update it submits for a task given the requested progress value. -/
def updateTaskProgress (progress : Int) : TaskUpdate :=
  { progress := progress
    status := if 100 ≤ progress then "completed" else "in_progress" }

/-- The `+25%` button (line 564): `Math.min(task.progress + 25, 100)`. -/
def plusTwentyFiveProgress (progress : Int) : Int :=
  min (progress + 25) 100

/-- `addTargetSkill` (lines 260-276): the parsed level is written into the
form's target-skill record only when `level >= 0 && level <= 100`; an
existing entry with the same name is overwritten, otherwise the entry is
appended (object-spread update `{...prev.target_skills, [skillName]: level}`). -/
def addTargetSkill (targets : List (String × Int)) (name : String) (level : Int) :
    List (String × Int) :=
  if 0 ≤ level ∧ level ≤ 100 then
    if targets.any (fun p => p.1 == name) then
      targets.map (fun p => if p.1 == name then (name, level) else p)
    else targets ++ [(name, level)]
  else targets

/-! ## LeetCode search history (src/frontend/components/LeetCodeAnalysis.tsx) -/

/-- The search-history update in `analyzeLeetCode` (lines 253-258):
`[username, ...prev.filter(item => item !== username)].slice(0, 5)`. -/
def updateSearchHistory (prev : List String) (username : String) : List String :=
  (username :: prev.filter (fun item => item != username)).take 5

/-! ## Auth middleware (src/frontend/middleware.ts) -/

/-- What `jwtDecode` yields for the `access_token` cookie: either the decode
throws, or it produces a payload with an optional `exp` claim. -/
inductive TokenState
  | undecodable
  | decoded (exp : Option Int)
deriving DecidableEq

/-- The three ways the middleware can answer a request. -/
inductive MwResult
  | redirectLogin
  | redirectDashboard
  | next
deriving DecidableEq

/-- `protectedRoutes` from `middleware.ts` line 13. -/
def protectedRoutes : List String := ["/dashboard", "/settings"]

/-- `authRoutes` from `middleware.ts` line 15. -/
def authRoutes : List String := ["/login", "/register"]

/-- The validity test in `middleware.ts` lines 113-124: the token is treated
as invalid when decoding throws, when the payload has no `exp` claim, or
when `Date.now() >= decoded.exp * 1000`. -/
def tokenInvalid (now : Int) : TokenState → Bool
  | .undecodable => true
  | .decoded none => true
  | .decoded (some exp) => decide (exp * 1000 ≤ now)

/-- `pathname.startsWith(route)` from the middleware, written out on the
character lists of the strings. -/
def strStartsWith (s pre : String) : Bool :=
  pre.data.isPrefixOf s.data

/-- The route checks in `middleware.ts` lines 125-137, reached after the
token-validity block: a protected-route prefix match without a token
redirects to `/login`; an exact auth-route match with a token redirects to
`/dashboard`; otherwise the request proceeds. -/
def middlewareRoutes (pathname : String) (hasToken : Bool) : MwResult :=
  if protectedRoutes.any (fun route => strStartsWith pathname route) && !hasToken then
    .redirectLogin
  else if authRoutes.contains pathname && hasToken then
    .redirectDashboard
  else
    .next

/-- `middleware` from `middleware.ts` (lines 22-138): a `?logout` query
parameter forces a redirect to `/login` (lines 25-107); otherwise an
invalid present token redirects to `/login` (lines 113-124) and the route
checks run (lines 125-137). -/
def middleware (hasLogoutParam : Bool) (now : Int) (pathname : String)
    (token : Option TokenState) : MwResult :=
  if hasLogoutParam then .redirectLogin
  else
    match token with
    | some t =>
        if tokenInvalid now t then .redirectLogin
        else middlewareRoutes pathname true
    | none => middlewareRoutes pathname false

/-! ## Job Matcher (spec §4.3; the engine behind `/api/jobs` matching) -/

/-- One stored proficiency record of a user: a skill name with a 0-100
proficiency, possibly several records per name (one per source). -/
structure UserSkill where
  name : String
  prof : Nat
deriving DecidableEq

/-- Modelled from the spec: one entry of a job's `requiredSkills` list —
skill name, minimum proficiency, and the requirement's declared importance
(the weight; spec §4.3). The matching engine itself is not in the
checked-in sources. -/
structure Requirement where
  name : String
  minProf : Nat
  weight : Nat
deriving DecidableEq

/-- Modelled from the spec: the user's maximum proficiency across sources
for a skill name (spec §4.3 "look up the user's maximum proficiency across
sources for that skill name"), `none` when the user lacks the skill. -/
def userProf (skills : List UserSkill) (name : String) : Option Nat :=
  let profs := (skills.filter (fun s => s.name == name)).map (fun s => s.prof)
  if profs.isEmpty then none else some (profs.foldr max 0)

/-- How a single requirement is classified against the user's skills. -/
inductive ReqClass
  | matched
  | belowMin
  | missing
deriving DecidableEq

/-- Modelled from the spec: a required skill is `matched` when the user's
maximum proficiency reaches the minimum, `belowMin` when the user has
the skill below the minimum, `missing` when the user lacks it (spec §4.3). -/
def classifyReq (skills : List UserSkill) (r : Requirement) : ReqClass :=
  match userProf skills r.name with
  | none => .missing
  | some p => if r.minProf ≤ p then .matched else .belowMin

/-- Modelled from the spec: the weight a requirement earns — full weight
when matched, half weight when present but below the minimum, zero when
missing (spec §4.3). -/
def earnedWeight (skills : List UserSkill) (r : Requirement) : ℚ :=
  match classifyReq skills r with
  | .matched => (r.weight : ℚ)
  | .belowMin => (r.weight : ℚ) / 2
  | .missing => 0

/-- Modelled from the spec: the total possible weight of a job's
requirement list. -/
def possibleWeight (reqs : List Requirement) : ℚ :=
  (reqs.map (fun r => (r.weight : ℚ))).sum

/-- Modelled from the spec: `matchPercentage = sum(earned weight) /
sum(possible weight) × 100`, rounded to the nearest integer; a job with an
empty requirement list yields 100 (spec §4.3, §3). The matching engine is
not in the checked-in sources. -/
def matchPercentage (skills : List UserSkill) (reqs : List Requirement) : ℤ :=
  if reqs.isEmpty then 100
  else round ((reqs.map (earnedWeight skills)).sum / possibleWeight reqs * 100)

/-- Modelled from the spec: the matched-skill list of the match result. -/
def matchedNames (skills : List UserSkill) (reqs : List Requirement) : List String :=
  (reqs.filter (fun r => classifyReq skills r == .matched)).map (fun r => r.name)

/-- Modelled from the spec: the partially-matched-skill list of the match
result. -/
def belowMinNames (skills : List UserSkill) (reqs : List Requirement) : List String :=
  (reqs.filter (fun r => classifyReq skills r == .belowMin)).map (fun r => r.name)

/-- Modelled from the spec: the missing-skill list of the match result. -/
def missingNames (skills : List UserSkill) (reqs : List Requirement) : List String :=
  (reqs.filter (fun r => classifyReq skills r == .missing)).map (fun r => r.name)

/-! ## Skill Aggregator (spec §4.2; the engine behind `/api/skills`) -/

/-- One stored skill row: unique per (name, source) for a fixed user
(spec §3); the user is fixed throughout, so it is omitted. -/
structure StoredSkill where
  name : String
  source : String
  prof : Nat
deriving DecidableEq

/-- Two rows hit the same (name, source) key. -/
def isSameKey (a b : StoredSkill) : Bool :=
  a.name == b.name && a.source == b.source

/-- Modelled from the spec: merging one freshly extracted skill into the
stored rows — for an identical (name, source) the new proficiency replaces
the old row, otherwise a new row is appended; rows for other sources are
kept (spec §4.2 merge rule). The aggregation engine is not in the
checked-in sources. -/
def mergeSkill (stored : List StoredSkill) (fresh : StoredSkill) : List StoredSkill :=
  if stored.any (fun s => isSameKey s fresh) then
    stored.map (fun s => if isSameKey s fresh then fresh else s)
  else stored ++ [fresh]

/-- Modelled from the spec: the per-name statistic used when ranking top
skills — the maximum stored proficiency for the name across sources
(spec §4.2). -/
def rankingProf (stored : List StoredSkill) (name : String) : Nat :=
  ((stored.filter (fun s => s.name == name)).map (fun s => s.prof)).foldr max 0

/-- The (name, source) key list of the stored rows, used to state row
uniqueness. -/
def keyList (stored : List StoredSkill) : List (String × String) :=
  stored.map (fun s => (s.name, s.source))

/-! ## Learning Path Generator (spec §4.4; behind `/api/learning-path`) -/

/-- Modelled from the spec: one target skill of a path request — desired
proficiency plus whether it comes from a stated job requirement (which
puts it in the higher priority tier, spec §4.4). -/
structure TargetSkill where
  name : String
  targetProf : Nat
  fromJob : Bool
deriving DecidableEq

/-- Modelled from the spec: one generated learning task (spec §3
LearningTask). -/
structure GenTask where
  name : String
  targetProf : Nat
  currentProf : Nat
  estimatedHours : Nat
  status : String
  progress : Nat
deriving DecidableEq

/-- Modelled from the spec: the error kinds of the engine (spec §7). -/
inductive EngineError
  | inputFormat
  | notFound
  | invalidRequest
  | computation
deriving DecidableEq

/-- Hours-per-deficit-point heuristic of the generator (spec §4.4). -/
def hoursPerPoint : Nat := 2

/-- Minimum task size, the floor on estimated hours (spec §4.4). -/
def minTaskHours : Nat := 1

/-- Modelled from the spec: the task built for one unmet target — hours
proportional to the deficit with a floor, fresh status, zero progress
(spec §4.4, §8). -/
def mkTask (skills : List UserSkill) (t : TargetSkill) : GenTask :=
  let current := (userProf skills t.name).getD 0
  { name := t.name
    targetProf := t.targetProf
    currentProf := current
    estimatedHours := max minTaskHours (hoursPerPoint * (t.targetProf - current))
    status := "not_started"
    progress := 0 }

/-- Sort key of a generated task: priority tier first (job-required targets
win), then ascending proficiency deficit (spec §4.4 ordering policy). -/
def taskKey (skills : List UserSkill) (t : TargetSkill) : Nat × Nat :=
  ((if t.fromJob then 0 else 1), t.targetProf - (userProf skills t.name).getD 0)

/-- Deterministic insertion step of the generator's ordering. -/
def insertTarget (skills : List UserSkill) (t : TargetSkill) :
    List TargetSkill → List TargetSkill
  | [] => [t]
  | u :: rest =>
      if taskKey skills t ≤ taskKey skills u then t :: u :: rest
      else u :: insertTarget skills t rest

/-- Deterministic insertion sort by `taskKey` (spec §4.4 ordering policy). -/
def sortTargets (skills : List UserSkill) : List TargetSkill → List TargetSkill
  | [] => []
  | t :: rest => insertTarget skills t (sortTargets skills rest)

/-- Modelled from the spec: the Learning Path Generator — an empty
target-skill set fails with `invalidRequest`; otherwise the unmet targets
(current proficiency below target) are ordered by priority tier and
ascending deficit and turned into tasks (spec §4.4). The generator is not
in the checked-in sources. -/
def generatePath (skills : List UserSkill) (targets : List TargetSkill) :
    Except EngineError (List GenTask) :=
  if targets.isEmpty then .error .invalidRequest
  else
    .ok (((sortTargets skills targets).filter
      (fun t => (userProf skills t.name).getD 0 < t.targetProf)).map (mkTask skills))

/-- The per-user state the generator endpoints act on: the skill snapshot
and the current task list. -/
structure PathState where
  skills : List UserSkill
  tasks : List GenTask
deriving DecidableEq

/-- Modelled from the spec: the effect of a generate request on the user's
state — on success the task list is replaced, on failure nothing is
created (spec §4.4, §7 "no skill/job data is ever partially written"). -/
def applyGenerate (st : PathState) (targets : List TargetSkill) : PathState :=
  match generatePath st.skills targets with
  | .ok ts => { st with tasks := ts }
  | .error _ => st

/-! ## Skill Extractor (spec §4.1; behind `/api/skills/analyze`) -/

/-- Modelled from the spec: the input artifact classes the extractor
distinguishes — empty input, an unsupported format, non-text binary where
text was expected, and text carrying raw signal counts (keyword
occurrences, control-flow density, construct variety; spec §4.1). -/
inductive Artifact
  | emptyInput
  | unsupported
  | binaryData
  | text (signals complexity variety : Nat)
deriving DecidableEq

/-- One extracted skill record (spec §3). -/
structure ExtractedSkill where
  name : String
  prof : Nat
deriving DecidableEq

/-- Clamp of a raw heuristic score into the 0-100 proficiency range
(spec §4.1 "clamp to [0,100]"). -/
def clampProf (score : Nat) : Nat := min score 100

/-- Modelled from the spec: the proficiency heuristic combining signal
count, complexity indicators, and variety of constructs (spec §4.1; the
exact weights are design-level, only the combination and clamp matter). -/
def rawScore (signals complexity variety : Nat) : Nat :=
  signals * 10 + complexity * 5 + variety * 5

/-- Modelled from the spec: the Skill Extractor — empty or unsupported
input yields an empty skill list (not an error), non-text binary fails
with `inputFormat`, and text input always succeeds, low-signal text simply
scoring a low clamped proficiency (spec §4.1). The extractor is not in the
checked-in sources. -/
def extractSkills : Artifact → Except EngineError (List ExtractedSkill)
  | .emptyInput => .ok []
  | .unsupported => .ok []
  | .binaryData => .error .inputFormat
  | .text signals complexity variety =>
      .ok [{ name := "detected-language"
             prof := clampProf (rawScore signals complexity variety) }]

/-! ## Example inputs from the spec (§8) -/

/-- The user skill set of the spec's worked example: Python 80, SQL 40. -/
def exampleUserSkills : List UserSkill := [⟨"Python", 80⟩, ⟨"SQL", 40⟩]

/-- The requirement list of the spec's worked example:
Python ≥ 60 weight 2, SQL ≥ 60 weight 1, Go ≥ 50 weight 1. -/
def exampleJobReqs : List Requirement :=
  [⟨"Python", 60, 2⟩, ⟨"SQL", 60, 1⟩, ⟨"Go", 50, 1⟩]

/-! ## Theorems -/

/-- C4: `updateTaskProgress` submits status `completed` exactly when the
submitted progress is at least 100 — progress 100 yields `completed`,
every progress below 100 yields `in_progress`, and `completed` holds if
and only if `100 ≤ progress`. -/
theorem C4_updateTaskProgress_status :
    (updateTaskProgress 100).status = "completed" ∧
    (∀ p : Int, p < 100 → (updateTaskProgress p).status = "in_progress") ∧
    (∀ p : Int, (updateTaskProgress p).status = "completed" ↔ 100 ≤ p) := by
  refine ⟨rfl, fun p hp => ?_, fun p => ?_⟩
  · simp [updateTaskProgress, not_le.mpr hp]
  · constructor
    · intro h
      by_contra hlt
      rw [updateTaskProgress] at h
      rw [if_neg hlt] at h
      simp at h
    · intro h
      simp [updateTaskProgress, if_pos h]

/-- Witness for C4 at concrete progress values. -/
theorem C4_witness :
    (updateTaskProgress 100).status = "completed" ∧
    (updateTaskProgress 40).status = "in_progress" ∧
    ((updateTaskProgress 150).status = "completed" ↔ (100 : Int) ≤ 150) :=
  ⟨C4_updateTaskProgress_status.1,
   C4_updateTaskProgress_status.2.1 40 (by decide),
   C4_updateTaskProgress_status.2.2 150⟩

/-- C3: proficiency and progress values stay in [0, 100] — every skill
list the extractor returns has clamped proficiencies, the `+25%` progress
button keeps an in-range progress in range, and `addTargetSkill` keeps
every stored target level in range. -/
theorem C3_values_clamped :
    (∀ (a : Artifact) (skills : List ExtractedSkill), extractSkills a = .ok skills →
      ∀ sk ∈ skills, sk.prof ≤ 100) ∧
    (∀ p : Int, 0 ≤ p → p ≤ 100 →
      0 ≤ plusTwentyFiveProgress p ∧ plusTwentyFiveProgress p ≤ 100) ∧
    (∀ (targets : List (String × Int)) (name : String) (level : Int),
      (∀ q ∈ targets, 0 ≤ q.2 ∧ q.2 ≤ 100) →
      ∀ q ∈ addTargetSkill targets name level, 0 ≤ q.2 ∧ q.2 ≤ 100) := by
  refine ⟨?_, ?_, ?_⟩
  · intro a skills h sk hsk
    cases a with
    | emptyInput =>
        injection h with h
        subst h
        cases hsk
    | unsupported =>
        injection h with h
        subst h
        cases hsk
    | binaryData => exact Except.noConfusion h
    | text s c v =>
        injection h with h
        subst h
        rw [List.mem_singleton] at hsk
        subst hsk
        exact min_le_right _ _
  · intro p h0 _
    refine ⟨le_min (by linarith) (by norm_num), min_le_right _ _⟩
  · intro targets name level hall q hq
    rw [addTargetSkill] at hq
    split at hq
    · next hrange =>
      split at hq
      · rcases List.mem_map.1 hq with ⟨r, hr, hrq⟩
        by_cases hk : (r.1 == name) = true
        · rw [if_pos hk] at hrq
          subst hrq
          exact hrange
        · rw [if_neg hk] at hrq
          subst hrq
          exact hall r hr
      · rcases List.mem_append.1 hq with h | h
        · exact hall q h
        · rw [List.mem_singleton] at h
          subst h
          exact hrange
    · exact hall q hq

/-- Witness for C3 at concrete inputs. -/
theorem C3_witness :
    (∀ sk ∈ [ExtractedSkill.mk "detected-language" 100], sk.prof ≤ 100) ∧
    (0 ≤ plusTwentyFiveProgress 90 ∧ plusTwentyFiveProgress 90 ≤ 100) ∧
    (∀ q ∈ addTargetSkill [("Go", (30 : Int))] "Python" 80, 0 ≤ q.2 ∧ q.2 ≤ 100) :=
  ⟨C3_values_clamped.1 (.text 20 3 4) _ rfl,
   C3_values_clamped.2.1 90 (by decide) (by decide),
   C3_values_clamped.2.2 [("Go", 30)] "Python" 80 (by decide)⟩

/-- C9: after an analysis of `username`, the search history starts with
`username` and has at most 5 entries, whatever the prior list was, and a
duplicate-free prior history stays duplicate-free. -/
theorem C9_search_history_invariant :
    ∀ (prev : List String) (username : String),
      (updateSearchHistory prev username).head? = some username ∧
      (updateSearchHistory prev username).length ≤ 5 ∧
      (prev.Nodup → (updateSearchHistory prev username).Nodup) := by
  intro prev username
  refine ⟨?_, ?_, fun hnd => ?_⟩
  · simp [updateSearchHistory, List.take_succ_cons]
  · simp [updateSearchHistory, List.length_take]
  · apply List.Nodup.sublist (List.take_sublist 5 _)
    rw [List.nodup_cons]
    refine ⟨fun hm => ?_, hnd.filter _⟩
    simp [List.mem_filter] at hm

/-- Witness for C9 at a concrete prior history. -/
theorem C9_witness :
    (updateSearchHistory ["alice", "bob"] "bob").head? = some "bob" ∧
    (updateSearchHistory ["alice", "bob"] "bob").length ≤ 5 ∧
    (updateSearchHistory ["alice", "bob"] "bob").Nodup :=
  ⟨(C9_search_history_invariant ["alice", "bob"] "bob").1,
   (C9_search_history_invariant ["alice", "bob"] "bob").2.1,
   (C9_search_history_invariant ["alice", "bob"] "bob").2.2 (by decide)⟩

/-- C10 counterexample: a request to `/login` carrying an undecodable
token is redirected to `/login`, not to `/dashboard` as the claim's third
clause states for every token-holding request. -/
theorem C10_counterexample :
    middleware false 0 "/login" (some TokenState.undecodable) ≠
      MwResult.redirectDashboard := by
  decide

/-- C10 (amended): an invalid present token (undecodable, no `exp`, or
expired) always redirects to `/login`; a token-less request to a path
starting with `/dashboard` or `/settings` redirects to `/login`; and a
request without the logout parameter to exactly `/login` or `/register`
holding a valid token redirects to `/dashboard`. -/
theorem C10_middleware_amended :
    (∀ (lp : Bool) (now : Int) (pathname : String) (t : TokenState),
      tokenInvalid now t = true →
      middleware lp now pathname (some t) = .redirectLogin) ∧
    (∀ (lp : Bool) (now : Int) (pathname : String),
      (strStartsWith pathname "/dashboard" = true ∨
        strStartsWith pathname "/settings" = true) →
      middleware lp now pathname none = .redirectLogin) ∧
    (∀ (now : Int) (pathname : String) (t : TokenState),
      tokenInvalid now t = false →
      (pathname = "/login" ∨ pathname = "/register") →
      middleware false now pathname (some t) = .redirectDashboard) := by
  refine ⟨?_, ?_, ?_⟩
  · intro lp now pathname t h
    cases lp <;> simp [middleware, h]
  · intro lp now pathname h
    cases lp <;>
      · rcases h with h | h <;>
          simp [middleware, middlewareRoutes, protectedRoutes, h]
  · intro now pathname t h1 h2
    rcases h2 with h2 | h2 <;>
      · subst h2
        simp [middleware, middlewareRoutes, h1, authRoutes]

/-- Witness for the amended C10 at concrete requests. -/
theorem C10_witness :
    middleware false 0 "/jobs" (some TokenState.undecodable) = .redirectLogin ∧
    middleware false 5 "/dashboard/jobs" none = .redirectLogin ∧
    middleware false 0 "/login" (some (TokenState.decoded (some 1))) =
      .redirectDashboard :=
  ⟨C10_middleware_amended.1 false 0 "/jobs" _ rfl,
   C10_middleware_amended.2.1 false 5 "/dashboard/jobs" (Or.inl (by decide)),
   C10_middleware_amended.2.2 0 "/login" _ (by decide) (Or.inl rfl)⟩

/-- C8: the extractor yields an empty skill list (not an error) on empty
or unsupported input, fails with `inputFormat` on non-text binary input,
and never fails on text input, however low its signal counts. -/
theorem C8_extractor_error_contract :
    extractSkills .emptyInput = .ok [] ∧
    extractSkills .unsupported = .ok [] ∧
    extractSkills .binaryData = .error .inputFormat ∧
    ∀ signals complexity variety : Nat,
      ∃ skills, extractSkills (.text signals complexity variety) = .ok skills :=
  ⟨rfl, rfl, rfl, fun _ _ _ => ⟨_, rfl⟩⟩

/-- C7: generating a learning path for an empty target-skill set fails
with `invalidRequest` and leaves the state unchanged (no task is created),
while every non-empty target-skill set succeeds. -/
theorem C7_empty_targets_invalid :
    (∀ skills : List UserSkill, generatePath skills [] = .error .invalidRequest) ∧
    (∀ st : PathState, applyGenerate st [] = st) ∧
    (∀ (skills : List UserSkill) (targets : List TargetSkill), targets ≠ [] →
      ∃ tasks, generatePath skills targets = .ok tasks) := by
  refine ⟨fun skills => rfl, fun st => rfl, fun skills targets h => ?_⟩
  rw [generatePath, if_neg (by simpa using h)]
  exact ⟨_, rfl⟩

/-- Witness for C7 at a concrete non-empty target set. -/
theorem C7_witness :
    ∃ tasks, generatePath [] [⟨"Go", 70, false⟩] = .ok tasks :=
  C7_empty_targets_invalid.2.2 [] [⟨"Go", 70, false⟩] (by decide)

/-- C6: the Learning Path Generator is deterministic in its inputs — a
generate request leaves the skill snapshot untouched, so issuing the same
request again before any progress update produces the identical ordered
task list and the identical engine answer. -/
theorem C6_generator_deterministic :
    ∀ (st : PathState) (targets : List TargetSkill),
      (applyGenerate st targets).skills = st.skills ∧
      generatePath (applyGenerate st targets).skills targets =
        generatePath st.skills targets ∧
      (applyGenerate (applyGenerate st targets) targets).tasks =
        (applyGenerate st targets).tasks := by
  intro st targets
  have hskills : (applyGenerate st targets).skills = st.skills := by
    rw [applyGenerate]
    cases h : generatePath st.skills targets <;> rfl
  refine ⟨hskills, by rw [hskills], ?_⟩
  conv_lhs => rw [applyGenerate, hskills]
  cases h : generatePath st.skills targets with
  | ok ts =>
      have h2 : (applyGenerate st targets).tasks = ts := by
        rw [applyGenerate, h]
      exact h2.symm
  | error e => rfl

/-- A fold of `max` over a non-empty list of naturals lands on one of its
elements. -/
lemma foldr_max_mem (l : List Nat) (h : l ≠ []) : l.foldr max 0 ∈ l := by
  induction l with
  | nil => exact absurd rfl h
  | cons a t ih =>
      cases t with
      | nil => simp
      | cons b t2 =>
          rcases max_choice a ((b :: t2).foldr max 0) with hm | hm
          · rw [List.foldr_cons, hm]
            exact List.mem_cons_self _ _
          · rw [List.foldr_cons, hm]
            exact List.mem_cons_of_mem _ (ih (by simp))

/-- Every element of a list of naturals is bounded by the fold of `max`
over it. -/
lemma le_foldr_max {a : Nat} {l : List Nat} (h : a ∈ l) : a ≤ l.foldr max 0 := by
  induction l with
  | nil => cases h
  | cons b t ih =>
      rcases List.mem_cons.1 h with rfl | h2
      · exact le_max_left _ _
      · exact le_trans (ih h2) (le_max_right _ _)

/-- C5: merging a fresh skill whose (name, source) key matches a stored
row keeps the row count (no duplicate row), stores the fresh proficiency
(last-write-wins), keeps every row with a different key, preserves key
uniqueness, and the ranking statistic for a name is the maximum stored
proficiency across that name's rows. -/
theorem C5_merge_last_write_wins :
    (∀ (stored : List StoredSkill) (fresh : StoredSkill),
      stored.any (fun s => isSameKey s fresh) = true →
      (mergeSkill stored fresh).length = stored.length) ∧
    (∀ (stored : List StoredSkill) (fresh : StoredSkill),
      fresh ∈ mergeSkill stored fresh) ∧
    (∀ (stored : List StoredSkill) (fresh s : StoredSkill),
      s ∈ stored → isSameKey s fresh = false → s ∈ mergeSkill stored fresh) ∧
    (∀ (stored : List StoredSkill) (fresh : StoredSkill),
      (keyList stored).Nodup → (keyList (mergeSkill stored fresh)).Nodup) ∧
    (∀ (stored : List StoredSkill) (name : String) (s : StoredSkill),
      s ∈ stored → s.name = name → s.prof ≤ rankingProf stored name) ∧
    (∀ (stored : List StoredSkill) (name : String),
      (∃ s ∈ stored, s.name = name) →
      ∃ s ∈ stored, s.name = name ∧ rankingProf stored name = s.prof) := by
  refine ⟨?_, ?_, ?_, ?_, ?_, ?_⟩
  · intro stored fresh h
    rw [mergeSkill, if_pos h]
    exact List.length_map _ _
  · intro stored fresh
    by_cases hany : stored.any (fun s => isSameKey s fresh) = true
    · rw [mergeSkill, if_pos hany]
      rcases List.any_eq_true.1 hany with ⟨s, hs, hkey⟩
      exact List.mem_map.2 ⟨s, hs, by rw [if_pos hkey]⟩
    · rw [mergeSkill, if_neg hany]
      exact List.mem_append_right _ (List.mem_singleton_self _)
  · intro stored fresh s hs hkey
    by_cases hany : stored.any (fun s => isSameKey s fresh) = true
    · rw [mergeSkill, if_pos hany]
      exact List.mem_map.2 ⟨s, hs, by rw [if_neg (by simp [hkey])]⟩
    · rw [mergeSkill, if_neg hany]
      exact List.mem_append_left _ hs
  · intro stored fresh hnd
    by_cases hany : stored.any (fun s => isSameKey s fresh) = true
    · rw [mergeSkill, if_pos hany]
      have hkeys : keyList (stored.map
          (fun s => if isSameKey s fresh then fresh else s)) = keyList stored := by
        rw [keyList, keyList, List.map_map]
        refine List.map_congr_left fun s _ => ?_
        by_cases hk : isSameKey s fresh = true
        · have hk2 := hk
          rw [isSameKey, Bool.and_eq_true, beq_iff_eq, beq_iff_eq] at hk2
          simp [hk, hk2.1, hk2.2]
        · simp [hk]
      rw [hkeys]
      exact hnd
    · rw [mergeSkill, if_neg hany]
      rw [keyList, List.map_append]
      rw [List.nodup_append]
      refine ⟨hnd, List.nodup_singleton _, ?_⟩
      intro k hk hk2
      simp only [List.map_singleton, List.mem_singleton] at hk2
      subst hk2
      rcases List.mem_map.1 hk with ⟨s, hs, hkey⟩
      have hsame : isSameKey s fresh = true := by
        rw [isSameKey, Bool.and_eq_true, beq_iff_eq, beq_iff_eq]
        injection hkey with h1 h2
        exact ⟨h1, h2⟩
      exact hany (List.any_eq_true.2 ⟨s, hs, hsame⟩)
  · intro stored name s hs hname
    apply le_foldr_max
    apply List.mem_map_of_mem
    rw [List.mem_filter]
    exact ⟨hs, by rw [beq_iff_eq]; exact hname⟩
  · intro stored name hex
    rcases hex with ⟨s0, hs0, hname0⟩
    have hs0f : s0 ∈ stored.filter (fun s => s.name == name) := by
      rw [List.mem_filter]
      exact ⟨hs0, by rw [beq_iff_eq]; exact hname0⟩
    have hne : ((stored.filter (fun s => s.name == name)).map
        (fun s => s.prof)) ≠ [] :=
      List.ne_nil_of_mem (List.mem_map_of_mem _ hs0f)
    have hmem := foldr_max_mem _ hne
    rcases List.mem_map.1 hmem with ⟨s, hsf, hprof⟩
    rw [List.mem_filter] at hsf
    exact ⟨s, hsf.1, by rw [← beq_iff_eq]; exact hsf.2, by rw [rankingProf, ← hprof]⟩

/-- Witness for C5: re-extracting Python from GitHub overwrites the
GitHub row, keeps the LeetCode row, and the ranking statistic is the
maximum across the two sources. -/
theorem C5_witness :
    (mergeSkill [⟨"Python", "github", 70⟩, ⟨"Python", "leetcode", 50⟩]
      ⟨"Python", "github", 90⟩).length = 2 ∧
    StoredSkill.mk "Python" "github" 90 ∈
      mergeSkill [⟨"Python", "github", 70⟩, ⟨"Python", "leetcode", 50⟩]
        ⟨"Python", "github", 90⟩ ∧
    StoredSkill.mk "Python" "leetcode" 50 ∈
      mergeSkill [⟨"Python", "github", 70⟩, ⟨"Python", "leetcode", 50⟩]
        ⟨"Python", "github", 90⟩ ∧
    (keyList (mergeSkill [⟨"Python", "github", 70⟩, ⟨"Python", "leetcode", 50⟩]
      ⟨"Python", "github", 90⟩)).Nodup ∧
    (50 : Nat) ≤ rankingProf [⟨"Python", "github", 70⟩, ⟨"Python", "leetcode", 50⟩]
      "Python" ∧
    ∃ s ∈ [StoredSkill.mk "Python" "github" 70, StoredSkill.mk "Python" "leetcode" 50],
      s.name = "Python" ∧
      rankingProf [⟨"Python", "github", 70⟩, ⟨"Python", "leetcode", 50⟩] "Python" =
        s.prof :=
  ⟨C5_merge_last_write_wins.1 _ _ (by decide),
   C5_merge_last_write_wins.2.1 _ _,
   C5_merge_last_write_wins.2.2.1 _ _ _ (by decide) (by decide),
   C5_merge_last_write_wins.2.2.2.1 _ _ (by decide),
   C5_merge_last_write_wins.2.2.2.2.1 _ "Python" ⟨"Python", "leetcode", 50⟩
     (by decide) rfl,
   C5_merge_last_write_wins.2.2.2.2.2 _ "Python"
     ⟨⟨"Python", "github", 70⟩, by decide, rfl⟩⟩

/-- The weight a requirement earns is nonnegative. -/
lemma earnedWeight_nonneg (skills : List UserSkill) (r : Requirement) :
    0 ≤ earnedWeight skills r := by
  unfold earnedWeight
  cases classifyReq skills r
  · exact Nat.cast_nonneg _
  · positivity
  · exact le_refl 0

/-- The weight a requirement earns never exceeds its declared weight. -/
lemma earnedWeight_le (skills : List UserSkill) (r : Requirement) :
    earnedWeight skills r ≤ (r.weight : ℚ) := by
  unfold earnedWeight
  cases classifyReq skills r
  · exact le_refl _
  · exact half_le_self (Nat.cast_nonneg _)
  · exact Nat.cast_nonneg _

/-- C2: the match percentage always lies in [0, 100], and a job with an
empty requirement list yields exactly 100. -/
theorem C2_match_percentage_bounds :
    ∀ (skills : List UserSkill) (reqs : List Requirement),
      (0 ≤ matchPercentage skills reqs ∧ matchPercentage skills reqs ≤ 100) ∧
      matchPercentage skills [] = 100 := by
  intro skills reqs
  refine ⟨?_, rfl⟩
  rw [matchPercentage]
  split
  · norm_num
  · have hE0 : 0 ≤ (reqs.map (earnedWeight skills)).sum := by
      apply List.sum_nonneg
      intro x hx
      rcases List.mem_map.1 hx with ⟨r, _, hrx⟩
      exact hrx ▸ earnedWeight_nonneg skills r
    have hEP : (reqs.map (earnedWeight skills)).sum ≤ possibleWeight reqs :=
      List.sum_le_sum fun r _ => earnedWeight_le skills r
    have hP0 : 0 ≤ possibleWeight reqs := by
      apply List.sum_nonneg
      intro x hx
      rcases List.mem_map.1 hx with ⟨r, _, hrx⟩
      exact hrx ▸ Nat.cast_nonneg _
    rcases eq_or_lt_of_le hP0 with hP | hP
    · have hE : (reqs.map (earnedWeight skills)).sum = 0 :=
        le_antisymm (hP ▸ hEP) hE0
      rw [hE, zero_div, zero_mul, round_zero]
      norm_num
    · have h1 : 0 ≤ (reqs.map (earnedWeight skills)).sum / possibleWeight reqs * 100 := by
        positivity
      have hle : (reqs.map (earnedWeight skills)).sum / possibleWeight reqs ≤ 1 :=
        (div_le_one hP).2 hEP
      have h2 : (reqs.map (earnedWeight skills)).sum / possibleWeight reqs * 100 ≤ 100 := by
        nlinarith
      rw [round_eq]
      constructor
      · rw [Int.floor_nonneg]
        linarith
      · calc ⌊(reqs.map (earnedWeight skills)).sum / possibleWeight reqs * 100 + 1 / 2⌋ ≤
            ⌊(201 / 2 : ℚ)⌋ := Int.floor_le_floor (by linarith)
          _ = 100 := by norm_num

/-- C1: a required skill earns its full weight when matched, half its
weight when present below the minimum, and nothing when missing; for a
non-empty requirement list the match percentage is the earned-over-possible
weight ratio times 100 rounded to nearest; and the spec's worked example
evaluates to 63 with matched [Python], partial [SQL], missing [Go]. -/
theorem C1_match_weighting_example :
    (∀ (skills : List UserSkill) (r : Requirement),
      (classifyReq skills r = .matched → earnedWeight skills r = (r.weight : ℚ)) ∧
      (classifyReq skills r = .belowMin →
        earnedWeight skills r = (r.weight : ℚ) / 2) ∧
      (classifyReq skills r = .missing → earnedWeight skills r = 0)) ∧
    (∀ (skills : List UserSkill) (reqs : List Requirement), reqs ≠ [] →
      matchPercentage skills reqs =
        round ((reqs.map (earnedWeight skills)).sum / possibleWeight reqs * 100)) ∧
    matchPercentage exampleUserSkills exampleJobReqs = 63 ∧
    matchedNames exampleUserSkills exampleJobReqs = ["Python"] ∧
    belowMinNames exampleUserSkills exampleJobReqs = ["SQL"] ∧
    missingNames exampleUserSkills exampleJobReqs = ["Go"] := by
  refine ⟨fun skills r => ⟨fun h => ?_, fun h => ?_, fun h => ?_⟩,
    fun skills reqs h => ?_, ?_, by decide, by decide, by decide⟩
  · simp [earnedWeight, h]
  · simp [earnedWeight, h]
  · simp [earnedWeight, h]
  · rw [matchPercentage, if_neg (by simpa using h)]
  · norm_num +decide [matchPercentage, exampleUserSkills, exampleJobReqs, earnedWeight,
      classifyReq, userProf, possibleWeight, List.filter, round_eq]

/-- Witness for C1 at the spec's worked example. -/
theorem C1_witness :
    earnedWeight exampleUserSkills ⟨"Python", 60, 2⟩ =
      ((Requirement.mk "Python" 60 2).weight : ℚ) ∧
    earnedWeight exampleUserSkills ⟨"SQL", 60, 1⟩ =
      ((Requirement.mk "SQL" 60 1).weight : ℚ) / 2 ∧
    earnedWeight exampleUserSkills ⟨"Go", 50, 1⟩ = 0 ∧
    matchPercentage exampleUserSkills exampleJobReqs =
      round ((exampleJobReqs.map (earnedWeight exampleUserSkills)).sum /
        possibleWeight exampleJobReqs * 100) :=
  ⟨(C1_match_weighting_example.1 exampleUserSkills ⟨"Python", 60, 2⟩).1 (by decide),
   (C1_match_weighting_example.1 exampleUserSkills ⟨"SQL", 60, 1⟩).2.1 (by decide),
   (C1_match_weighting_example.1 exampleUserSkills ⟨"Go", 50, 1⟩).2.2 (by decide),
   C1_match_weighting_example.2.1 exampleUserSkills exampleJobReqs (by decide)⟩

end JobAccelerator
